import Mathlib

/-!
Shallow embedding of the `aws_kms_grant` resource implementation
(`resourceAwsKmsGrant` and its helpers) from the terraform-provider-aws
repository, together with proofs about its constraint hashing, constraint
validation, paginated grant search, retry classification and CRUD glue.

Go values are modelled as follows:
* `map[string]string` (the encryption-context maps) becomes an association
  list `List (String × String)`; the map invariant (no duplicate keys) is
  carried as a `Nodup` hypothesis on the key list where it matters.
* Go errors become the inductive `GoError`; a typed `nil`-or-value pair
  `(T, error)` becomes `Except GoError T` (exactly one side is set in the
  source paths modelled here).
* The closure-based retry helper `resource.Retry` of the helper library is
  not part of this repository; it is modelled from the spec (see
  `resourceRetry`) with a fuel bound standing for the wall-clock deadline,
  one unit of fuel per attempt.
* AWS connections are modelled as response oracles: a function from the
  attempt index (and, for `ListGrants`, the pagination marker) to the
  response the remote system gives to that call.  The attempt index models
  remote state evolving between retries.
-/

/-- Go errors as they occur in the grant resource file: AWS API errors
carrying a code (`awserr.Error`), the custom `KmsGrantMissingError`,
the deadline-exceeded error produced by the retry helper (wrapping the
last retryable failure), plain `fmt.Errorf` errors, and a marker for a
nil-pointer dereference panic. -/
inductive GoError where
  | aws (code message : String)
  | kmsGrantMissing (message : String)
  | timeout (last : GoError)
  | generic (message : String)
  | nilPointerDereference
  deriving DecidableEq

/-- Result of one attempt inside the retry helper: the closure either
succeeds, fails retryably, or fails fatally. -/
inductive RetryStep (α : Type) where
  | ok (a : α)
  | retryable (e : GoError)
  | nonRetryable (e : GoError)
  deriving DecidableEq

/-- Modelled from the spec: the bounded-retry executor of the external
helper library (`resource.Retry`), which this repository only calls.  The
attempt function is indexed by the attempt number; `fuel` is the number of
attempts the deadline admits.  A retryable failure on the last admitted
attempt is returned wrapped as a deadline-exceeded error ("on deadline
exhaustion while still receiving retryable failures, return the last
failure wrapped as a timeout-exceeded error"); a fatal failure is returned
immediately.  The second component counts the attempts performed. -/
def resourceRetry {α : Type} (f : Nat → RetryStep α) : Nat → Nat → Except GoError α × Nat
  | _, 0 => (.error (.timeout (.generic "deadline exceeded before any attempt")), 0)
  | i, fuel + 1 =>
    match f i with
    | .ok a => (.ok a, 1)
    | .nonRetryable e => (.error e, 1)
    | .retryable e =>
      match fuel with
      | 0 => (.error (.timeout e), 1)
      | m + 1 =>
        let r := resourceRetry f (i + 1) (m + 1)
        (r.1, r.2 + 1)

/-- One element of the `constraints` set: the Go element is a
`map[string]interface{}` holding the two optional encryption-context
maps; a key that is absent (or whose type assertion fails) is `none`. -/
structure GrantConstraint where
  encryption_context_equals : Option (List (String × String))
  encryption_context_subset : Option (List (String × String))
  deriving DecidableEq

/-- Go map indexing `m[key]` on the association-list representation of a
string map (first binding wins; on a `Nodup` key list it is the binding). -/
def lookupStringMap : List (String × String) → String → Option String
  | [], _ => none
  | (key, v) :: rest, k => if k = key then some v else lookupStringMap rest k

/-- `sortStringMapKeys` from the source: collect the keys of the map and
sort them ascending (`sort.Strings`). -/
def sortStringMapKeys (m : List (String × String)) : List String :=
  List.insertionSort (fun a b : String => a ≤ b) (m.map Prod.fst)

/-- `sortedConcatStringMap` from the source: walk the sorted keys, append
each key and its value to `strList`, and join with the separator
(`strings.Join`). -/
def sortedConcatStringMap (m : List (String × String)) (sep : String) : String :=
  String.intercalate sep
    ((sortStringMapKeys m).foldl
      (fun strList key => strList ++ [key, (lookupStringMap m key).getD ""]) [])

/-- One of the two symmetric `buf.WriteString` blocks of
`resourceKmsGrantConstraintsHash`: if the map is present and non-empty,
write `"<kind>-" ++ sortedConcatStringMap m "-" ++ "-"`; an absent or
empty map contributes nothing. -/
def kmsGrantComponentString (pre : String) (o : Option (List (String × String))) : String :=
  match o with
  | some v => if 0 < v.length then pre ++ sortedConcatStringMap v "-" ++ "-" else ""
  | none => ""

/-- The serialization buffer built by `resourceKmsGrantConstraintsHash`:
the equals block followed by the subset block. -/
def kmsGrantConstraintsString (c : GrantConstraint) : String :=
  kmsGrantComponentString "encryption_context_equals-" c.encryption_context_equals ++
  kmsGrantComponentString "encryption_context_subset-" c.encryption_context_subset

/-- Modelled from the spec: the external `hashcode.String` helper, "a
standard string hash (e.g., FNV/CRC-family) to a fixed-width integer";
modelled as 32-bit FNV-1a over the characters of the string.  Its only
property used below is that it is a function of the string. -/
def hashcodeString (s : String) : Nat :=
  s.data.foldl (fun h c => ((h ^^^ c.toNat) * 16777619) % 4294967296) 2166136261

/-- `resourceKmsGrantConstraintsHash` from the source: hash of the
serialization buffer.  (The defensive `castOk` branch for a value that is
not a `map[string]interface{}` cannot arise in the typed model.) -/
def resourceKmsGrantConstraintsHash (c : GrantConstraint) : Nat :=
  hashcodeString (kmsGrantConstraintsString c)

/-- `kmsGrantConstraintsCount`: the loop body of
`kmsGrantConstraintsIsValid`, accumulating the number of present,
non-empty encryption-context maps across the set. -/
def kmsGrantConstraintsCount : List GrantConstraint → Nat → Nat
  | [], acc => acc
  | data :: rest, acc =>
    let acc1 := match data.encryption_context_equals with
      | some v => if 0 < v.length then acc + 1 else acc
      | none => acc
    let acc2 := match data.encryption_context_subset with
      | some v => if 0 < v.length then acc1 + 1 else acc1
      | none => acc1
    kmsGrantConstraintsCount rest acc2

/-- `kmsGrantConstraintsIsValid` from the source: count the non-empty
constraint maps across the whole set; invalid when the count exceeds 1. -/
def kmsGrantConstraintsIsValid (constraints : List GrantConstraint) : Bool :=
  if kmsGrantConstraintsCount constraints 0 > 1 then false else true

/-- The `kms.GrantConstraints` API type: the two optional
encryption-context maps of a grant as the remote API carries them. -/
structure GrantConstraints where
  encryptionContextEquals : Option (List (String × String))
  encryptionContextSubset : Option (List (String × String))
  deriving DecidableEq

/-- `expandKmsGrantConstraints` from the source: an empty set expands to
no constraints (`nil`); otherwise each element's present maps are written
into the single API constraints value. -/
def expandKmsGrantConstraints (configured : List GrantConstraint) : Option GrantConstraints :=
  if configured.length < 1 then none
  else some (configured.foldl
    (fun constraint data =>
      let constraint1 := match data.encryption_context_equals with
        | some m => { constraint with encryptionContextEquals := some m }
        | none => constraint
      match data.encryption_context_subset with
      | some m => { constraint1 with encryptionContextSubset := some m }
      | none => constraint1)
    { encryptionContextEquals := none, encryptionContextSubset := none })

/-- `flattenKmsGrantConstraints` from the source: a `nil` constraints
pointer flattens to the empty set; otherwise one set element is built
whose keys are present only for the non-empty maps. -/
def flattenKmsGrantConstraints (constraint : Option GrantConstraints) : List GrantConstraint :=
  match constraint with
  | none => []
  | some c =>
    [{ encryption_context_equals := match c.encryptionContextEquals with
        | some l => if 0 < l.length then some l else none
        | none => none,
       encryption_context_subset := match c.encryptionContextSubset with
        | some l => if 0 < l.length then some l else none
        | none => none }]

/-- One entry of a `ListGrants` response (`kms.GrantListEntry`), with the
fields the resource reads. -/
structure GrantListEntry where
  grantId : String
  granteePrincipal : String
  retiringPrincipal : Option String
  name : String
  operations : List String
  constraints : Option GrantConstraints
  deriving DecidableEq

/-- `getKmsGrantById` from the source: scan the listed grants and return
the first whose `GrantId` equals the searched identifier. -/
def getKmsGrantById (grants : List GrantListEntry) (grantIdentifier : String) : Option GrantListEntry :=
  grants.find? (fun grant => grant.grantId == grantIdentifier)

/-- A successful `ListGrants` response: one page of grants, the
truncation flag and the continuation marker for the next page. -/
structure ListGrantsPage where
  grants : List GrantListEntry
  truncated : Bool
  nextMarker : Option String
  deriving DecidableEq

/-- The per-page retry classification inside `findKmsGrantById`:
`NotFoundException`, `DependencyTimeoutException` and `InternalException`
are retried; every other AWS error, and every non-AWS error, is fatal. -/
def listGrantsRetryStep (listGrants : Option String → Except GoError ListGrantsPage)
    (marker : Option String) : RetryStep ListGrantsPage :=
  match listGrants marker with
  | .ok out => .ok out
  | .error (.aws code msg) =>
    if code == "NotFoundException" || code == "DependencyTimeoutException" ||
        code == "InternalException"
    then .retryable (.aws code msg) else .nonRetryable (.aws code msg)
  | .error e => .nonRetryable e

/-- `findKmsGrantById` from the source: fetch one page (each fetch wrapped
in the retry helper), scan it, and recurse on the returned marker while
the page is truncated and no match was found; when the pages are exhausted
return the dedicated `KmsGrantMissingError`.  The recursion is bounded by
`pageFuel`; the second component counts the `ListGrants` calls performed.
When the page fetch fails even after retrying, the source drops the error
and dereferences the nil `Truncated` field of the zero-value response,
which panics: that path is the `nilPointerDereference` error. -/
def findKmsGrantById (listGrants : Option String → Except GoError ListGrantsPage)
    (keyId grantId : String) (retryFuel : Nat) :
    Nat → Option String → Except GoError GrantListEntry × Nat
  | 0, _ => (.error (.generic "pagination fuel exhausted"), 0)
  | pageFuel + 1, marker =>
    let r := resourceRetry (fun _ => listGrantsRetryStep listGrants marker) 0 retryFuel
    match r.1 with
    | .error _ => (.error .nilPointerDereference, r.2)
    | .ok out =>
      match getKmsGrantById out.grants grantId with
      | some grant => (.ok grant, r.2)
      | none =>
        if out.truncated then
          let rrec := findKmsGrantById listGrants keyId grantId retryFuel pageFuel out.nextMarker
          (rrec.1, r.2 + rrec.2)
        else
          (.error (.kmsGrantMissing
            ("[DEBUG] Grant " ++ grantId ++ " not found for key id: " ++ keyId)), r.2)

/-- `ListingChain listGrants marker pages` says that starting from
`marker` the listing oracle serves exactly the given sequence of pages:
every page but the last is truncated and points at the marker under which
the next page is served, and the last page is not truncated. -/
inductive ListingChain (listGrants : Option String → Except GoError ListGrantsPage) :
    Option String → List (List GrantListEntry) → Prop
  | last {m ps nm} :
      listGrants m = .ok { grants := ps, truncated := false, nextMarker := nm } →
      ListingChain listGrants m [ps]
  | cons {m ps m2 rest} :
      listGrants m = .ok { grants := ps, truncated := true, nextMarker := m2 } →
      ListingChain listGrants m2 rest →
      ListingChain listGrants m (ps :: rest)

/-- The result of `findKmsGrantByIdWithRetry` as its callers see it: the
Go pair `(grant, err)` plus the number of finder lookups performed.  On a
retry failure the closure's last assignment left `grant` nil, so exactly
one of the two fields is set. -/
structure FindWithRetryResult where
  grant : Option GrantListEntry
  err : Option GoError
  lookups : Nat
  deriving DecidableEq

/-- The retry classification inside `findKmsGrantByIdWithRetry`: a
`KmsGrantMissingError` from the finder forces a retry (the grant is
expected to exist); every other error is fatal.  The finder itself is
abstracted as an oracle from the attempt index to its result. -/
def findKmsGrantByIdWithRetryStep (find : Nat → Except GoError GrantListEntry)
    (i : Nat) : RetryStep GrantListEntry :=
  match find i with
  | .ok g => .ok g
  | .error (.kmsGrantMissing m) => .retryable (.kmsGrantMissing m)
  | .error e => .nonRetryable e

/-- `findKmsGrantByIdWithRetry` from the source: retry the finder under
the deadline, treating only the missing-grant error as retryable. -/
def findKmsGrantByIdWithRetry (find : Nat → Except GoError GrantListEntry)
    (fuel : Nat) : FindWithRetryResult :=
  let r := resourceRetry (findKmsGrantByIdWithRetryStep find) 0 fuel
  match r.1 with
  | .ok g => { grant := some g, err := none, lookups := r.2 }
  | .error e => { grant := none, err := some e, lookups := r.2 }

/-- The retry closure of `waitForKmsGrantToBeRevoked`: a missing-grant
error from the finder is the success condition; a still-listed grant is
retryable; any other finder error is fatal. -/
def waitForKmsGrantToBeRevokedStep (find : Nat → Except GoError GrantListEntry)
    (i : Nat) : RetryStep Unit :=
  match find i with
  | .error (.kmsGrantMissing _) => .ok ()
  | .error e => .nonRetryable e
  | .ok grant => .retryable (.generic
      ("[DEBUG] Grant still exists while expected to be revoked, retyring revocation check: "
        ++ grant.grantId))

/-- `waitForKmsGrantToBeRevoked` from the source: poll the finder under
the deadline until the grant is observed missing.  The second component
counts the polls performed. -/
def waitForKmsGrantToBeRevoked (find : Nat → Except GoError GrantListEntry)
    (fuel : Nat) : Except GoError Unit × Nat :=
  resourceRetry (waitForKmsGrantToBeRevokedStep find) 0 fuel

/-- The fields of `kms.CreateGrantOutput` the resource uses. -/
structure CreateGrantOutput where
  grantId : String
  grantToken : String
  deriving DecidableEq

/-- The retryable error codes of the `CreateGrant` retry closure. -/
def isKmsCreateRetryableCode (code : String) : Bool :=
  code == "DependencyTimeoutException" || code == "InternalException" ||
    code == "InvalidArnException"

/-- The `CreateGrant` retry closure of `resourceAwsKmsGrantCreate`: an AWS
error with one of the three retryable codes is wrapped in a retrying
warning; every other error (AWS or not) is fatal and kept as is. -/
def createGrantRetryStep (createGrant : Nat → Except GoError CreateGrantOutput)
    (keyId : String) (i : Nat) : RetryStep CreateGrantOutput :=
  match createGrant i with
  | .ok out => .ok out
  | .error (.aws code msg) =>
    if isKmsCreateRetryableCode code
    then .retryable (.generic
      ("[WARN] Error adding new KMS Grant for key: " ++ keyId ++ ", retrying " ++ msg))
    else .nonRetryable (.aws code msg)
  | .error e => .nonRetryable e

/-- The validation error message of `resourceAwsKmsGrantCreate` (source
text abridged: the source contracts "cannot"). -/
def kmsGrantConstraintsErrMsg : String :=
  "[ERROR] A grant constraint cannot have both encryption_context_equals and encryption_context_subset set"

/-- Go `strings.HasPrefix` on the character-list view of strings (for
ASCII prefixes such as `"arn:aws"` the byte-prefix and character-prefix
views agree on every valid UTF-8 string). -/
def stringHasPrefix (s pre : String) : Bool :=
  List.isPrefixOf pre.data s.data

/-- What `resourceAwsKmsGrantRead` does to the Terraform state: the
returned error, whether the id was cleared (`d.SetId("")`), the values
written to the principal and other fields (`none` means the field was left
unchanged), and how many finder lookups were performed. -/
structure ReadResult where
  err : Option GoError
  idCleared : Bool
  granteeSet : Option String
  retiringSet : Option String
  nameSet : Option String
  operationsSet : Option (List String)
  constraintsSet : Option (List GrantConstraint)
  finderLookups : Nat
  deriving DecidableEq

/-- `resourceAwsKmsGrantRead` from the source: one `findKmsGrantByIdWithRetry`
call; a returned error is surfaced as is; a nil grant clears the id (in
the source this branch is unreachable, because the with-retry finder
never returns a nil grant together with a nil error); a found grant is
reconciled into state, skipping grantee and retiring principals that do
not start with the canonical `"arn:aws"` prefix, skipping an empty name
and nil constraints. -/
def resourceAwsKmsGrantRead (find : Nat → Except GoError GrantListEntry)
    (fuel : Nat) : ReadResult :=
  let res := findKmsGrantByIdWithRetry find fuel
  match res.err with
  | some e =>
    { err := some e, idCleared := false, granteeSet := none, retiringSet := none,
      nameSet := none, operationsSet := none, constraintsSet := none,
      finderLookups := res.lookups }
  | none =>
    match res.grant with
    | none =>
      { err := none, idCleared := true, granteeSet := none, retiringSet := none,
        nameSet := none, operationsSet := none, constraintsSet := none,
        finderLookups := res.lookups }
    | some grant =>
      { err := none, idCleared := false,
        granteeSet :=
          if stringHasPrefix grant.granteePrincipal "arn:aws"
          then some grant.granteePrincipal else none,
        retiringSet :=
          match grant.retiringPrincipal with
          | some rp => if stringHasPrefix rp "arn:aws" then some rp else none
          | none => none,
        nameSet := if grant.name ≠ "" then some grant.name else none,
        operationsSet := some grant.operations,
        constraintsSet :=
          match grant.constraints with
          | some c => some (flattenKmsGrantConstraints (some c))
          | none => none,
        finderLookups := res.lookups }

/-- What `resourceAwsKmsGrantCreate` does: the returned error, the number
of `CreateGrant` calls made, the number of finder lookups made (by the
chained Read), and the grant id stored in state. -/
structure CreateResult where
  err : Option GoError
  createCalls : Nat
  finderLookups : Nat
  grantIdSet : Option String
  deriving DecidableEq

/-- `resourceAwsKmsGrantCreate` from the source: when a constraints set is
supplied and `kmsGrantConstraintsIsValid` rejects it, return the
validation error before any remote call; otherwise submit `CreateGrant`
through the retry helper with `createGrantRetryStep` as classification,
surface a failure, and on success store the grant id and chain into
`resourceAwsKmsGrantRead`. -/
def resourceAwsKmsGrantCreate (constraints : Option (List GrantConstraint))
    (createGrant : Nat → Except GoError CreateGrantOutput)
    (find : Nat → Except GoError GrantListEntry)
    (keyId : String) (fuel : Nat) : CreateResult :=
  let validationFailed :=
    match constraints with
    | some cs => !(kmsGrantConstraintsIsValid cs)
    | none => false
  if validationFailed then
    { err := some (.generic kmsGrantConstraintsErrMsg), createCalls := 0,
      finderLookups := 0, grantIdSet := none }
  else
    let r := resourceRetry (createGrantRetryStep createGrant keyId) 0 fuel
    match r.1 with
    | .error e =>
      { err := some e, createCalls := r.2, finderLookups := 0, grantIdSet := none }
    | .ok out =>
      let readRes := resourceAwsKmsGrantRead find fuel
      { err := readRes.err, createCalls := r.2,
        finderLookups := readRes.finderLookups, grantIdSet := some out.grantId }

/-- What `resourceAwsKmsGrantDelete` does: the returned error, whether the
id was cleared, the number of `RevokeGrant` calls issued and the number of
revocation polls performed. -/
structure DeleteResult where
  err : Option GoError
  idCleared : Bool
  revokeCalls : Nat
  polls : Nat
  deriving DecidableEq

/-- `resourceAwsKmsGrantDelete` from the source: one `RevokeGrant` call,
not wrapped in the retry helper; a revoke failure is returned with the id
still set; on revoke success `waitForKmsGrantToBeRevoked` polls the finder
and only its success clears the id. -/
def resourceAwsKmsGrantDelete (revokeGrant : Except GoError Unit)
    (find : Nat → Except GoError GrantListEntry) (fuel : Nat) : DeleteResult :=
  match revokeGrant with
  | .error e => { err := some e, idCleared := false, revokeCalls := 1, polls := 0 }
  | .ok _ =>
    let w := waitForKmsGrantToBeRevoked find fuel
    match w.1 with
    | .error e => { err := some e, idCleared := false, revokeCalls := 1, polls := w.2 }
    | .ok _ => { err := none, idCleared := true, revokeCalls := 1, polls := w.2 }

/-- `resourceAwsKmsGrantExists` from the source: a finder error reports
the resource as existing together with the error; a found grant reports it
as existing; only a nil grant with a nil error reports absence. -/
def resourceAwsKmsGrantExists (find : Nat → Except GoError GrantListEntry)
    (fuel : Nat) : Bool × Option GoError :=
  let r := findKmsGrantByIdWithRetry find fuel
  match r.err with
  | some e => (true, some e)
  | none =>
    match r.grant with
    | some _ => (true, none)
    | none => (false, none)

/-- The body of the source's `KmsGrantMissingError.Error` method is
`return e.Error()`: a call to the method is another call to the same
method.  The first argument is the remaining call-stack depth; the method
returns a string only if some unfolding of the body does, so the model
returns `none` when the stack is exhausted. -/
def kmsGrantMissingErrorErrorCall : Nat → String → Option String
  | 0, _ => none
  | depth + 1, e => kmsGrantMissingErrorErrorCall depth e

/-- A successful first attempt makes the retry helper return after exactly
one attempt. -/
theorem resourceRetry_ok_first {α : Type} (f : Nat → RetryStep α) (i fuel : Nat) (a : α)
    (h : f i = .ok a) (hf : 1 ≤ fuel) : resourceRetry f i fuel = (.ok a, 1) := by
  cases fuel with
  | zero => exact absurd hf (by omega)
  | succ m => simp [resourceRetry, h]

/-- A fatal first attempt makes the retry helper surface the error after
exactly one attempt. -/
theorem resourceRetry_nonretryable_first {α : Type} (f : Nat → RetryStep α) (i fuel : Nat)
    (e : GoError) (h : f i = .nonRetryable e) (hf : 1 ≤ fuel) :
    resourceRetry f i fuel = (.error e, 1) := by
  cases fuel with
  | zero => exact absurd hf (by omega)
  | succ m => simp [resourceRetry, h]

/-- One controlled unfolding of the retry helper: a retryable failure
with at least one more admitted attempt recurses at the next attempt
index and counts the attempt. -/
theorem resourceRetry_retryable_succ {α : Type} (f : Nat → RetryStep α) (i k : Nat)
    (e : GoError) (h : f i = .retryable e) :
    resourceRetry f i (k + 1 + 1) =
      ((resourceRetry f (i + 1) (k + 1)).1, (resourceRetry f (i + 1) (k + 1)).2 + 1) := by
  conv_lhs => rw [resourceRetry]
  rw [h]

/-- A retryable failure on the single admitted attempt exhausts the
deadline at once. -/
theorem resourceRetry_retryable_one {α : Type} (f : Nat → RetryStep α) (i : Nat)
    (e : GoError) (h : f i = .retryable e) :
    resourceRetry f i 1 = (.error (.timeout e), 1) := by
  conv_lhs => rw [resourceRetry]
  rw [h]

/-- With at least one admitted attempt, the retry helper performs at least
one attempt. -/
theorem resourceRetry_count_pos {α : Type} (f : Nat → RetryStep α) (i fuel : Nat)
    (hf : 1 ≤ fuel) : 1 ≤ (resourceRetry f i fuel).2 := by
  cases fuel with
  | zero => exact absurd hf (by omega)
  | succ m =>
    cases hstep : f i with
    | ok a => simp [resourceRetry_ok_first f i (m + 1) a hstep (by omega)]
    | nonRetryable e => simp [resourceRetry_nonretryable_first f i (m + 1) e hstep (by omega)]
    | retryable e =>
      cases m with
      | zero => simp [resourceRetry_retryable_one f i e hstep]
      | succ k => simp [resourceRetry_retryable_succ f i k e hstep]

/-- When the retry helper succeeds, the attempt it returns from is the
last one performed. -/
theorem resourceRetry_ok_last {α : Type} (f : Nat → RetryStep α) :
    ∀ (fuel i : Nat) (a : α), (resourceRetry f i fuel).1 = .ok a →
      f (i + (resourceRetry f i fuel).2 - 1) = .ok a := by
  intro fuel
  induction fuel with
  | zero => intro i a h; simp [resourceRetry] at h
  | succ m ih =>
    intro i a h
    cases hstep : f i with
    | ok b =>
      rw [resourceRetry_ok_first f i (m + 1) b hstep (by omega)] at h ⊢
      simp at h ⊢
      rw [hstep, h]
    | nonRetryable e =>
      rw [resourceRetry_nonretryable_first f i (m + 1) e hstep (by omega)] at h
      simp at h
    | retryable e =>
      cases m with
      | zero =>
        rw [resourceRetry_retryable_one f i e hstep] at h
        simp at h
      | succ k =>
        rw [resourceRetry_retryable_succ f i k e hstep] at h ⊢
        simp only at h ⊢
        have hc := resourceRetry_count_pos f (i + 1) (k + 1) (by omega)
        have harith : i + ((resourceRetry f (i + 1) (k + 1)).2 + 1) - 1 =
            i + 1 + (resourceRetry f (i + 1) (k + 1)).2 - 1 := by omega
        rw [harith]
        exact ih (i + 1) a h

/-- When every attempt fails retryably, the retry helper exhausts the
deadline and returns the last failure wrapped as a timeout error. -/
theorem resourceRetry_all_retryable {α : Type} (f : Nat → RetryStep α) (g : Nat → GoError)
    (hall : ∀ j, f j = .retryable (g j)) :
    ∀ (fuel i : Nat), 1 ≤ fuel →
      resourceRetry f i fuel = (.error (.timeout (g (i + fuel - 1))), fuel) := by
  intro fuel
  induction fuel with
  | zero => intro i h; exact absurd h (by omega)
  | succ m ih =>
    intro i _
    cases m with
    | zero => simp [resourceRetry_retryable_one f i (g i) (hall i)]
    | succ k =>
      have hrec := ih (i + 1) (by omega)
      have harith : i + 1 + (k + 1) - 1 = i + (k + 1 + 1) - 1 := by omega
      rw [resourceRetry_retryable_succ f i k (g i) (hall i), hrec, harith]

/-- C9: the `Error()` method of the custom `KmsGrantMissingError` type
calls itself, so for every value of that type an invocation never
terminates: at every call-stack depth the modelled invocation fails to
return the stored message. -/
theorem kms_grant_missing_error_never_returns :
    ∀ (depth : Nat) (e : String), kmsGrantMissingErrorErrorCall depth e = none := by
  intro depth e
  induction depth with
  | zero => rfl
  | succ n ih => simpa [kmsGrantMissingErrorErrorCall] using ih

/-- The spec's counting rule, stated independently of the accumulator
loop in the source: the number of constraint variants across the whole
set whose mapping is present and non-empty. -/
def nonEmptyVariantCount (cs : List GrantConstraint) : Nat :=
  (cs.map (fun c =>
    (match c.encryption_context_equals with
     | some v => if v ≠ [] then 1 else 0
     | none => 0) +
    (match c.encryption_context_subset with
     | some v => if v ≠ [] then 1 else 0
     | none => 0))).sum

/-- The source's accumulator loop computes the spec's count. -/
theorem kmsGrantConstraintsCount_eq (cs : List GrantConstraint) :
    ∀ acc, kmsGrantConstraintsCount cs acc = acc + nonEmptyVariantCount cs := by
  induction cs with
  | nil => intro acc; simp [kmsGrantConstraintsCount, nonEmptyVariantCount]
  | cons c rest ih =>
    intro acc
    obtain ⟨eqc, subc⟩ := c
    rcases eqc with _ | v <;> rcases subc with _ | w <;>
      simp only [kmsGrantConstraintsCount, nonEmptyVariantCount, List.map_cons,
        List.sum_cons, ih] <;>
      first
        | omega
        | (split_ifs <;> simp_all [List.length_pos] <;> omega)

/-- C2: a constraint set is valid exactly when at most one constraint
variant across the whole set has a non-empty mapping, and Create returns
the validation error with zero remote calls (no `CreateGrant` call, no
finder lookup) exactly when the supplied constraint set is invalid. -/
theorem kms_grant_constraints_validation :
    (∀ cs : List GrantConstraint,
        kmsGrantConstraintsIsValid cs = true ↔ nonEmptyVariantCount cs ≤ 1) ∧
    (∀ (cs : List GrantConstraint) (cg : Nat → Except GoError CreateGrantOutput)
        (find : Nat → Except GoError GrantListEntry) (keyId : String) (fuel : Nat),
        1 ≤ fuel →
        (resourceAwsKmsGrantCreate (some cs) cg find keyId fuel =
            { err := some (.generic kmsGrantConstraintsErrMsg), createCalls := 0,
              finderLookups := 0, grantIdSet := none } ↔
          kmsGrantConstraintsIsValid cs = false)) := by
  constructor
  · intro cs
    unfold kmsGrantConstraintsIsValid
    rw [kmsGrantConstraintsCount_eq cs 0]
    split_ifs with h
    · simp only [Bool.false_eq_true, false_iff]
      omega
    · simp only [true_iff]
      omega
  · intro cs cg find keyId fuel hf
    constructor
    · intro h
      cases hval : kmsGrantConstraintsIsValid cs with
      | false => rfl
      | true =>
        exfalso
        have h0 : (resourceAwsKmsGrantCreate (some cs) cg find keyId fuel).createCalls = 0 := by
          rw [h]
        have hcount := resourceRetry_count_pos (createGrantRetryStep cg keyId) 0 fuel hf
        unfold resourceAwsKmsGrantCreate at h0
        simp only [hval, Bool.not_true] at h0
        cases hr : (resourceRetry (createGrantRetryStep cg keyId) 0 fuel).1 <;>
          simp [hr] at h0 <;> omega
    · intro hinv
      simp [resourceAwsKmsGrantCreate, hinv]

/-- A set holding one element with a non-empty equals mapping and a
non-empty subset mapping: the conflicting configuration of the claim. -/
def conflictingConstraintSet : List GrantConstraint :=
  [{ encryption_context_equals := some [("x", "1")],
     encryption_context_subset := some [("y", "2")] }]

/-- A set holding one element with a non-empty equals mapping and an
empty subset mapping: the valid configuration of the claim. -/
def singleEqualsConstraintSet : List GrantConstraint :=
  [{ encryption_context_equals := some [("x", "1")],
     encryption_context_subset := some [] }]

/-- Applies the validation theorem at the set holding one non-empty
equals mapping and one non-empty subset mapping (invalid, Create rejects
it with no remote call) and at the set holding one non-empty equals
mapping and one empty subset mapping (valid). -/
theorem kms_grant_constraints_validation_witness :
    (kmsGrantConstraintsIsValid conflictingConstraintSet = true ↔
      nonEmptyVariantCount conflictingConstraintSet ≤ 1) ∧
    resourceAwsKmsGrantCreate (some conflictingConstraintSet)
      (fun _ => .error (.generic "unused")) (fun _ => .error (.generic "unused")) "k" 1 =
      { err := some (.generic kmsGrantConstraintsErrMsg), createCalls := 0,
        finderLookups := 0, grantIdSet := none } ∧
    kmsGrantConstraintsIsValid singleEqualsConstraintSet = true :=
  ⟨kms_grant_constraints_validation.1 _,
   (kms_grant_constraints_validation.2 _ _ _ "k" 1 (by decide)).mpr (by decide),
   (kms_grant_constraints_validation.1 _).mpr (by decide)⟩

/-- The retryable-code predicate of the Create retry closure holds
exactly on the three documented codes. -/
theorem isKmsCreateRetryableCode_iff (code : String) :
    isKmsCreateRetryableCode code = true ↔
      code = "DependencyTimeoutException" ∨ code = "InternalException" ∨
        code = "InvalidArnException" := by
  simp [isKmsCreateRetryableCode, or_assoc]

/-- C4: during Create, a failed `CreateGrant` attempt is classified
retryable exactly when its error is an AWS error whose code is
`DependencyTimeoutException`, `InternalException` or `InvalidArnException`;
any other first-attempt error is surfaced to the caller unchanged after
exactly one `CreateGrant` call and with no finder lookup. -/
theorem create_retry_classification :
    (∀ (cg : Nat → Except GoError CreateGrantOutput) (keyId : String) (i : Nat)
        (e : GoError), cg i = .error e →
        ((∃ code msg, e = .aws code msg ∧
            (code = "DependencyTimeoutException" ∨ code = "InternalException" ∨
              code = "InvalidArnException")) ↔
          ∃ w, createGrantRetryStep cg keyId i = .retryable w)) ∧
    (∀ (cg : Nat → Except GoError CreateGrantOutput)
        (find : Nat → Except GoError GrantListEntry) (keyId : String)
        (fuel : Nat) (e : GoError), 1 ≤ fuel → cg 0 = .error e →
        (∀ code msg, e = .aws code msg → isKmsCreateRetryableCode code = false) →
        resourceAwsKmsGrantCreate none cg find keyId fuel =
          { err := some e, createCalls := 1, finderLookups := 0, grantIdSet := none }) := by
  constructor
  · intro cg keyId i e h
    cases e with
    | aws code msg =>
      constructor
      · rintro ⟨c2, m2, heq, hcodes⟩
        injection heq with h1 h2
        subst h1
        have hc : isKmsCreateRetryableCode code = true :=
          (isKmsCreateRetryableCode_iff code).mpr hcodes
        exact ⟨.generic ("[WARN] Error adding new KMS Grant for key: " ++ keyId ++
          ", retrying " ++ msg), by simp [createGrantRetryStep, h, hc]⟩
      · rintro ⟨w, hw⟩
        by_cases hc : isKmsCreateRetryableCode code = true
        · exact ⟨code, msg, rfl, (isKmsCreateRetryableCode_iff code).mp hc⟩
        · simp [createGrantRetryStep, h, hc] at hw
    | kmsGrantMissing m => simp [createGrantRetryStep, h]
    | timeout l => simp [createGrantRetryStep, h]
    | generic m => simp [createGrantRetryStep, h]
    | nilPointerDereference => simp [createGrantRetryStep, h]
  · intro cg find keyId fuel e hf h0 hnr
    have hstep : createGrantRetryStep cg keyId 0 = .nonRetryable e := by
      cases e with
      | aws code msg => simp [createGrantRetryStep, h0, hnr code msg rfl]
      | kmsGrantMissing m => simp [createGrantRetryStep, h0]
      | timeout l => simp [createGrantRetryStep, h0]
      | generic m => simp [createGrantRetryStep, h0]
      | nilPointerDereference => simp [createGrantRetryStep, h0]
    have hr := resourceRetry_nonretryable_first (createGrantRetryStep cg keyId) 0 fuel e hstep hf
    simp [resourceAwsKmsGrantCreate, hr]

/-- Applies the classification theorem at a permission error on the first
`CreateGrant` call: it is surfaced at once, after one call. -/
theorem create_retry_classification_witness :
    resourceAwsKmsGrantCreate none (fun _ => .error (.aws "AccessDeniedException" "denied"))
      (fun _ => .error (.kmsGrantMissing "unused")) "k" 3 =
      { err := some (.aws "AccessDeniedException" "denied"), createCalls := 1,
        finderLookups := 0, grantIdSet := none } :=
  create_retry_classification.2 _ _ "k" 3 _ (by decide) rfl
    (by
      intro code msg h
      injection h with h1 h2
      subst h1
      decide)

/-- The revocation-poll closure succeeds exactly when the finder reports
the grant missing. -/
theorem waitForStep_ok_iff (find : Nat → Except GoError GrantListEntry) (i : Nat) :
    waitForKmsGrantToBeRevokedStep find i = .ok () ↔
      ∃ m, find i = .error (.kmsGrantMissing m) := by
  unfold waitForKmsGrantToBeRevokedStep
  cases h : find i with
  | ok g => simp
  | error e => cases e <;> simp

/-- C5: Delete issues exactly one revoke call (never retried at that
layer); a failed revoke surfaces the error with the identifier kept and
no poll; the revocation poll treats a missing grant as success and a
still-listed grant as retryable; the identifier is cleared only when the
last poll observed the grant missing; and a grant already absent at the
first poll makes Delete succeed with exactly one poll. -/
theorem delete_revoke_then_await_gone :
    (∀ (rv : Except GoError Unit) (find : Nat → Except GoError GrantListEntry) (fuel : Nat),
        (resourceAwsKmsGrantDelete rv find fuel).revokeCalls = 1) ∧
    (∀ (e : GoError) (find : Nat → Except GoError GrantListEntry) (fuel : Nat),
        resourceAwsKmsGrantDelete (.error e) find fuel =
          { err := some e, idCleared := false, revokeCalls := 1, polls := 0 }) ∧
    (∀ (find : Nat → Except GoError GrantListEntry) (i : Nat),
        (∀ m, find i = .error (.kmsGrantMissing m) →
          waitForKmsGrantToBeRevokedStep find i = .ok ()) ∧
        (∀ g, find i = .ok g →
          waitForKmsGrantToBeRevokedStep find i = .retryable (.generic
            ("[DEBUG] Grant still exists while expected to be revoked, retyring revocation check: "
              ++ g.grantId)))) ∧
    (∀ (find : Nat → Except GoError GrantListEntry) (fuel : Nat),
        (resourceAwsKmsGrantDelete (.ok ()) find fuel).idCleared = true →
        ∃ m, find ((resourceAwsKmsGrantDelete (.ok ()) find fuel).polls - 1) =
          .error (.kmsGrantMissing m)) ∧
    (∀ (find : Nat → Except GoError GrantListEntry) (fuel : Nat) (m : String),
        1 ≤ fuel → find 0 = .error (.kmsGrantMissing m) →
        resourceAwsKmsGrantDelete (.ok ()) find fuel =
          { err := none, idCleared := true, revokeCalls := 1, polls := 1 }) := by
  refine ⟨?_, ?_, ?_, ?_, ?_⟩
  · intro rv find fuel
    cases rv with
    | error e => rfl
    | ok u =>
      unfold resourceAwsKmsGrantDelete
      cases hw : (waitForKmsGrantToBeRevoked find fuel).1 <;> simp [hw]
  · intro e find fuel; rfl
  · intro find i
    constructor
    · intro m hm
      simp [waitForKmsGrantToBeRevokedStep, hm]
    · intro g hg
      simp [waitForKmsGrantToBeRevokedStep, hg]
  · intro find fuel hcl
    unfold resourceAwsKmsGrantDelete at hcl ⊢
    cases hw : (waitForKmsGrantToBeRevoked find fuel).1 with
    | error e => simp [hw] at hcl
    | ok u =>
      simp only [hw]
      have hw1 : (resourceRetry (waitForKmsGrantToBeRevokedStep find) 0 fuel).1 = .ok u := hw
      have hlast := resourceRetry_ok_last (waitForKmsGrantToBeRevokedStep find) fuel 0 u hw1
      cases u
      rw [Nat.zero_add] at hlast
      have hex := (waitForStep_ok_iff find _).mp hlast
      simpa [waitForKmsGrantToBeRevoked] using hex
  · intro find fuel m hf hm
    have hstep : waitForKmsGrantToBeRevokedStep find 0 = .ok () := by
      simp [waitForKmsGrantToBeRevokedStep, hm]
    have hr := resourceRetry_ok_first (waitForKmsGrantToBeRevokedStep find) 0 fuel () hstep hf
    simp [resourceAwsKmsGrantDelete, waitForKmsGrantToBeRevoked, hr]

/-- Applies the Delete theorem at a finder that already reports the grant
missing: Delete succeeds on the first poll and clears the identifier. -/
theorem delete_revoke_then_await_gone_witness :
    resourceAwsKmsGrantDelete (.ok ()) (fun _ => .error (.kmsGrantMissing "gone")) 3 =
      { err := none, idCleared := true, revokeCalls := 1, polls := 1 } :=
  delete_revoke_then_await_gone.2.2.2.2 _ 3 "gone" (by decide) rfl

/-- Reduction of the with-retry finder on a successful retry run. -/
theorem findWithRetry_ok {find : Nat → Except GoError GrantListEntry} {fuel : Nat}
    {g : GrantListEntry}
    (hr : (resourceRetry (findKmsGrantByIdWithRetryStep find) 0 fuel).1 = .ok g) :
    findKmsGrantByIdWithRetry find fuel =
      { grant := some g, err := none,
        lookups := (resourceRetry (findKmsGrantByIdWithRetryStep find) 0 fuel).2 } := by
  simp only [findKmsGrantByIdWithRetry, hr]

/-- Reduction of the with-retry finder on a failed retry run: the last
loop iteration assigned a nil grant alongside the error. -/
theorem findWithRetry_error {find : Nat → Except GoError GrantListEntry} {fuel : Nat}
    {e : GoError}
    (hr : (resourceRetry (findKmsGrantByIdWithRetryStep find) 0 fuel).1 = .error e) :
    findKmsGrantByIdWithRetry find fuel =
      { grant := none, err := some e,
        lookups := (resourceRetry (findKmsGrantByIdWithRetryStep find) 0 fuel).2 } := by
  simp only [findKmsGrantByIdWithRetry, hr]

/-- C10: Exists reports `(true, err)` whenever the retried lookup ends in
an error, `(true, nil)` whenever it yields a grant, and `(false, nil)`
exactly when the lookup yields neither an error nor a grant; a grant that
stays missing for the whole retry budget yields `(true, deadline error)`
wrapping the missing-grant failure provided. -/
theorem exists_true_on_error_or_grant :
    (∀ (find : Nat → Except GoError GrantListEntry) (fuel : Nat) (e : GoError),
        (findKmsGrantByIdWithRetry find fuel).err = some e →
        resourceAwsKmsGrantExists find fuel = (true, some e)) ∧
    (∀ (find : Nat → Except GoError GrantListEntry) (fuel : Nat) (g : GrantListEntry),
        (findKmsGrantByIdWithRetry find fuel).grant = some g →
        resourceAwsKmsGrantExists find fuel = (true, none)) ∧
    (∀ (find : Nat → Except GoError GrantListEntry) (fuel : Nat),
        resourceAwsKmsGrantExists find fuel = (false, none) ↔
          ((findKmsGrantByIdWithRetry find fuel).grant = none ∧
            (findKmsGrantByIdWithRetry find fuel).err = none)) ∧
    (∀ (find : Nat → Except GoError GrantListEntry) (fuel : Nat), 1 ≤ fuel →
        (∀ i, ∃ m, find i = .error (.kmsGrantMissing m)) →
        ∃ m, resourceAwsKmsGrantExists find fuel =
          (true, some (.timeout (.kmsGrantMissing m)))) := by
  refine ⟨?_, ?_, ?_, ?_⟩
  · intro find fuel e he
    cases hr : (resourceRetry (findKmsGrantByIdWithRetryStep find) 0 fuel).1 with
    | ok g =>
      rw [findWithRetry_ok hr] at he
      simp at he
    | error e2 =>
      rw [findWithRetry_error hr] at he
      simp at he
      subst he
      simp [resourceAwsKmsGrantExists, findWithRetry_error hr]
  · intro find fuel g hg
    cases hr : (resourceRetry (findKmsGrantByIdWithRetryStep find) 0 fuel).1 with
    | ok g2 =>
      simp [resourceAwsKmsGrantExists, findWithRetry_ok hr]
    | error e =>
      rw [findWithRetry_error hr] at hg
      simp at hg
  · intro find fuel
    cases hr : (resourceRetry (findKmsGrantByIdWithRetryStep find) 0 fuel).1 with
    | ok g => simp [resourceAwsKmsGrantExists, findWithRetry_ok hr]
    | error e => simp [resourceAwsKmsGrantExists, findWithRetry_error hr]
  · intro find fuel hf hall
    choose msgs hmsgs using hall
    have hstep : ∀ i, findKmsGrantByIdWithRetryStep find i =
        .retryable (.kmsGrantMissing (msgs i)) := by
      intro i
      unfold findKmsGrantByIdWithRetryStep
      rw [hmsgs i]
    have hr := resourceRetry_all_retryable (findKmsGrantByIdWithRetryStep find)
      (fun i => .kmsGrantMissing (msgs i)) hstep fuel 0 hf
    refine ⟨msgs (0 + fuel - 1), ?_⟩
    simp [resourceAwsKmsGrantExists, findKmsGrantByIdWithRetry, hr]

/-- Applies the Exists theorem at a finder on which the grant is missing
at every attempt: Exists reports the resource as present together with
the deadline error, never `(false, nil)`. -/
theorem exists_true_on_error_or_grant_witness :
    ∃ m, resourceAwsKmsGrantExists (fun _ => .error (.kmsGrantMissing "absent")) 2 =
      (true, some (.timeout (.kmsGrantMissing m))) :=
  exists_true_on_error_or_grant.2.2.2 _ 2 (by decide) (fun _ => ⟨"absent", rfl⟩)

/-- C6 concerns Read of an identifier absent from the remote listing.  In
the source the retry wrapper turns the missing-grant result into a
retryable failure, so the lookup exhausts its deadline and Read returns
that error without ever reaching its state-clearing branch: evaluated at
a finder that reports the grant missing on every attempt, Read returns
the deadline error wrapping the missing-grant failure and does not clear
the stored identifier. -/
theorem read_absent_grant_returns_error :
    resourceAwsKmsGrantRead (fun _ => .error (.kmsGrantMissing "not found")) 2 =
      { err := some (.timeout (.kmsGrantMissing "not found")), idCleared := false,
        granteeSet := none, retiringSet := none, nameSet := none,
        operationsSet := none, constraintsSet := none, finderLookups := 2 } := by
  rfl

/-- Counterexample to C7 as stated: with a finder whose first lookup
reports the grant missing and whose second finds it, Read performs two
finder lookups in one invocation — the missing-grant result was
re-attempted at the Read layer, not left at a single lookup. -/
theorem read_not_single_lookup :
    1 < (resourceAwsKmsGrantRead
      (fun i => if i == 0 then .error (.kmsGrantMissing "not yet") else
        .ok { grantId := "g1", granteePrincipal := "arn:aws:iam::123:role/r",
              retiringPrincipal := none, name := "n", operations := ["Encrypt"],
              constraints := none }) 5).finderLookups := by
  decide

/-- C7 amended: Read performs its lookup through
`findKmsGrantByIdWithRetry`; a first lookup that yields a grant means
exactly one finder lookup, a first lookup that fails with anything other
than the missing-grant error means exactly one finder lookup with that
error surfaced unretried, and a first lookup that yields the
missing-grant result is re-attempted at the Read layer (at least two
lookups when the budget admits them). -/
theorem read_lookup_retry_behavior :
    ∀ (find : Nat → Except GoError GrantListEntry) (fuel : Nat), 1 ≤ fuel →
      ((∀ g, find 0 = .ok g →
          (resourceAwsKmsGrantRead find fuel).finderLookups = 1) ∧
       (∀ e, find 0 = .error e → (∀ m, e ≠ .kmsGrantMissing m) →
          (resourceAwsKmsGrantRead find fuel).finderLookups = 1 ∧
            (resourceAwsKmsGrantRead find fuel).err = some e) ∧
       (∀ m, find 0 = .error (.kmsGrantMissing m) → 2 ≤ fuel →
          2 ≤ (resourceAwsKmsGrantRead find fuel).finderLookups)) := by
  intro find fuel hf
  refine ⟨?_, ?_, ?_⟩
  · intro g hg
    have hstep : findKmsGrantByIdWithRetryStep find 0 = .ok g := by
      unfold findKmsGrantByIdWithRetryStep
      rw [hg]
    have hr := resourceRetry_ok_first (findKmsGrantByIdWithRetryStep find) 0 fuel g hstep hf
    have h1 : (resourceRetry (findKmsGrantByIdWithRetryStep find) 0 fuel).1 = .ok g := by
      rw [hr]
    simp [resourceAwsKmsGrantRead, findWithRetry_ok h1, hr]
  · intro e he hne
    have hstep : findKmsGrantByIdWithRetryStep find 0 = .nonRetryable e := by
      unfold findKmsGrantByIdWithRetryStep
      rw [he]
      cases e with
      | kmsGrantMissing m => exact absurd rfl (hne m)
      | aws c m => rfl
      | timeout l => rfl
      | generic m => rfl
      | nilPointerDereference => rfl
    have hr := resourceRetry_nonretryable_first (findKmsGrantByIdWithRetryStep find)
      0 fuel e hstep hf
    have h1 : (resourceRetry (findKmsGrantByIdWithRetryStep find) 0 fuel).1 = .error e := by
      rw [hr]
    simp [resourceAwsKmsGrantRead, findWithRetry_error h1, hr]
  · intro m hm hf2
    have hstep : findKmsGrantByIdWithRetryStep find 0 = .retryable (.kmsGrantMissing m) := by
      unfold findKmsGrantByIdWithRetryStep
      rw [hm]
    obtain ⟨k, rfl⟩ : ∃ k, fuel = k + 1 + 1 := ⟨fuel - 2, by omega⟩
    have hr := resourceRetry_retryable_succ (findKmsGrantByIdWithRetryStep find)
      0 k (.kmsGrantMissing m) hstep
    have hcount := resourceRetry_count_pos (findKmsGrantByIdWithRetryStep find)
      1 (k + 1) (by omega)
    have hlook : (resourceAwsKmsGrantRead find (k + 1 + 1)).finderLookups =
        (findKmsGrantByIdWithRetry find (k + 1 + 1)).lookups := by
      unfold resourceAwsKmsGrantRead
      cases hE : (findKmsGrantByIdWithRetry find (k + 1 + 1)).err with
      | some e => simp [hE]
      | none =>
        cases hG : (findKmsGrantByIdWithRetry find (k + 1 + 1)).grant with
        | some g => simp [hE, hG]
        | none => simp [hE, hG]
    rw [hlook]
    have h2 : (findKmsGrantByIdWithRetry find (k + 1 + 1)).lookups =
        (resourceRetry (findKmsGrantByIdWithRetryStep find) 0 (k + 1 + 1)).2 := by
      unfold findKmsGrantByIdWithRetry
      cases hE : (resourceRetry (findKmsGrantByIdWithRetryStep find) 0 (k + 1 + 1)).1 <;>
        simp [hE]
    rw [h2, hr]
    simpa using hcount

/-- Applies the amended Read theorem at a finder whose first lookup finds
the grant: one finder lookup. -/
theorem read_lookup_retry_behavior_witness :
    (resourceAwsKmsGrantRead
      (fun _ => .ok { grantId := "g1", granteePrincipal := "arn:aws:iam::123:role/r",
                      retiringPrincipal := none, name := "n", operations := ["Encrypt"],
                      constraints := none }) 3).finderLookups = 1 :=
  (read_lookup_retry_behavior _ 3 (by decide)).1 _ rfl

/-- C8: on Read of a returned grant whose grantee principal does not
start with the canonical `"arn:aws"` prefix, the locally stored grantee
field is left unchanged, and likewise for a returned retiring principal;
the other returned fields are still reconciled as usual (operations
always, name when non-empty, constraints when present), and Read returns
no error. -/
theorem read_skips_noncanonical_principal :
    ∀ (find : Nat → Except GoError GrantListEntry) (fuel : Nat) (g : GrantListEntry),
      1 ≤ fuel → find 0 = .ok g →
      ((stringHasPrefix g.granteePrincipal "arn:aws" = false →
          (resourceAwsKmsGrantRead find fuel).granteeSet = none) ∧
       (∀ rp, g.retiringPrincipal = some rp → stringHasPrefix rp "arn:aws" = false →
          (resourceAwsKmsGrantRead find fuel).retiringSet = none) ∧
       (resourceAwsKmsGrantRead find fuel).operationsSet = some g.operations ∧
       (g.name ≠ "" → (resourceAwsKmsGrantRead find fuel).nameSet = some g.name) ∧
       (∀ c, g.constraints = some c →
          (resourceAwsKmsGrantRead find fuel).constraintsSet =
            some (flattenKmsGrantConstraints (some c))) ∧
       (resourceAwsKmsGrantRead find fuel).err = none) := by
  intro find fuel g hf hg
  have hstep : findKmsGrantByIdWithRetryStep find 0 = .ok g := by
    unfold findKmsGrantByIdWithRetryStep
    rw [hg]
  have hr := resourceRetry_ok_first (findKmsGrantByIdWithRetryStep find) 0 fuel g hstep hf
  have h1 : (resourceRetry (findKmsGrantByIdWithRetryStep find) 0 fuel).1 = .ok g := by
    rw [hr]
  have hread := findWithRetry_ok h1
  refine ⟨?_, ?_, ?_, ?_, ?_, ?_⟩
  · intro hnp
    simp [resourceAwsKmsGrantRead, hread, hnp]
  · intro rp hrp hnp
    simp [resourceAwsKmsGrantRead, hread, hrp, hnp]
  · simp [resourceAwsKmsGrantRead, hread]
  · intro hn
    simp [resourceAwsKmsGrantRead, hread, hn]
  · intro c hc
    simp [resourceAwsKmsGrantRead, hread, hc]
  · simp [resourceAwsKmsGrantRead, hread]

/-- Applies the principal-skip theorem at a grant whose grantee and
retiring principals are internal unique ids rather than canonical ARNs:
both principal fields are left unchanged while operations are written. -/
theorem read_skips_noncanonical_principal_witness :
    (resourceAwsKmsGrantRead
      (fun _ => .ok { grantId := "g1", granteePrincipal := "AROAJYCVIVUZIMTXXXXX",
                      retiringPrincipal := some "AROAJOTHERUNIQUEID",
                      name := "n", operations := ["Encrypt"],
                      constraints := none }) 2).granteeSet = none ∧
    (resourceAwsKmsGrantRead
      (fun _ => .ok { grantId := "g1", granteePrincipal := "AROAJYCVIVUZIMTXXXXX",
                      retiringPrincipal := some "AROAJOTHERUNIQUEID",
                      name := "n", operations := ["Encrypt"],
                      constraints := none }) 2).retiringSet = none ∧
    (resourceAwsKmsGrantRead
      (fun _ => .ok { grantId := "g1", granteePrincipal := "AROAJYCVIVUZIMTXXXXX",
                      retiringPrincipal := some "AROAJOTHERUNIQUEID",
                      name := "n", operations := ["Encrypt"],
                      constraints := none }) 2).operationsSet = some ["Encrypt"] :=
  ⟨(read_skips_noncanonical_principal _ 2 _ (by decide) rfl).1 (by decide),
   (read_skips_noncanonical_principal _ 2 _ (by decide) rfl).2.1 _ rfl (by decide),
   (read_skips_noncanonical_principal _ 2 _ (by decide) rfl).2.2.1⟩

/-- Two optional mappings hold the same key/value pairs up to insertion
order: both absent, or both present and permutations of each other. -/
def OptionMapPerm : Option (List (String × String)) → Option (List (String × String)) → Prop
  | none, none => True
  | some v1, some v2 => v1.Perm v2
  | _, _ => False

/-- The key list of an optional mapping has no duplicates (the Go map
invariant); an absent mapping satisfies it trivially. -/
def OptionKeysNodup : Option (List (String × String)) → Prop
  | none => True
  | some v => (v.map Prod.fst).Nodup

instance (o1 o2 : Option (List (String × String))) : Decidable (OptionMapPerm o1 o2) :=
  match o1, o2 with
  | none, none => isTrue trivial
  | some v1, some v2 => List.decidablePerm v1 v2
  | none, some _ => isFalse id
  | some _, none => isFalse id

instance (o : Option (List (String × String))) : Decidable (OptionKeysNodup o) :=
  match o with
  | none => isTrue trivial
  | some v => List.nodupDecidable (v.map Prod.fst)

/-- Map indexing is invariant under permutation of a map whose keys have
no duplicates. -/
theorem lookupStringMap_perm :
    ∀ {l1 l2 : List (String × String)}, l1.Perm l2 →
      (l1.map Prod.fst).Nodup → ∀ k, lookupStringMap l1 k = lookupStringMap l2 k := by
  intro l1 l2 p
  induction p with
  | nil => intro _ k; rfl
  | cons x p ih =>
    intro nd k
    obtain ⟨kx, vx⟩ := x
    simp only [List.map_cons, List.nodup_cons] at nd
    simp only [lookupStringMap]
    split
    · rfl
    · exact ih nd.2 k
  | swap x y l =>
    intro nd k
    obtain ⟨kx, vx⟩ := x
    obtain ⟨ky, vy⟩ := y
    have hne : ky ≠ kx := by
      simp only [List.map_cons, List.nodup_cons, List.mem_cons] at nd
      exact fun he => nd.1 (Or.inl he)
    by_cases h1 : k = ky <;> by_cases h2 : k = kx
    · exact absurd (h1.symm.trans h2) hne
    · simp [lookupStringMap, h1, h2, hne]
    · simp only [lookupStringMap, h1, h2, if_neg h1, if_pos h2]
      simp only [if_true]
      rw [if_neg (fun he : kx = ky => hne he.symm)]
    · simp [lookupStringMap, h1, h2]
  | trans p1 p2 ih1 ih2 =>
    intro nd k
    have nd2 := ((p1.map Prod.fst).nodup_iff).mp nd
    exact (ih1 nd k).trans (ih2 nd2 k)

/-- The sorted key list of a map depends only on the multiset of keys. -/
theorem sortStringMapKeys_perm {l1 l2 : List (String × String)} (p : l1.Perm l2) :
    sortStringMapKeys l1 = sortStringMapKeys l2 :=
  List.eq_of_perm_of_sorted
    ((List.perm_insertionSort _ _).trans ((p.map Prod.fst).trans
      (List.perm_insertionSort _ _).symm))
    (List.sorted_insertionSort _ _) (List.sorted_insertionSort _ _)

/-- The sorted serialization of a map is invariant under permutation of
a map whose keys have no duplicates. -/
theorem sortedConcatStringMap_perm {l1 l2 : List (String × String)} (p : l1.Perm l2)
    (nd : (l1.map Prod.fst).Nodup) (sep : String) :
    sortedConcatStringMap l1 sep = sortedConcatStringMap l2 sep := by
  unfold sortedConcatStringMap
  rw [sortStringMapKeys_perm p]
  have hfun : (fun (strList : List String) (key : String) =>
      strList ++ [key, (lookupStringMap l1 key).getD ""]) =
      (fun (strList : List String) (key : String) =>
        strList ++ [key, (lookupStringMap l2 key).getD ""]) := by
    funext s k
    rw [lookupStringMap_perm p nd k]
  rw [hfun]

/-- One serialization block is invariant under permutation of a present
mapping whose keys have no duplicates. -/
theorem kmsGrantComponentString_perm (pre : String)
    {o1 o2 : Option (List (String × String))}
    (nd : OptionKeysNodup o1) (p : OptionMapPerm o1 o2) :
    kmsGrantComponentString pre o1 = kmsGrantComponentString pre o2 := by
  rcases o1 with _ | v1 <;> rcases o2 with _ | v2
  · rfl
  · exact absurd p id
  · exact absurd p id
  · have p2 : v1.Perm v2 := p
    have nd2 : (v1.map Prod.fst).Nodup := nd
    show (if 0 < v1.length then pre ++ sortedConcatStringMap v1 "-" ++ "-" else "") =
      (if 0 < v2.length then pre ++ sortedConcatStringMap v2 "-" ++ "-" else "")
    rw [sortedConcatStringMap_perm p2 nd2 "-", p2.length_eq]

/-- The serialization buffer is invariant under reordering of the two
mappings of a constraint variant. -/
theorem kmsGrantConstraintsString_perm {c1 c2 : GrantConstraint}
    (nde : OptionKeysNodup c1.encryption_context_equals)
    (nds : OptionKeysNodup c1.encryption_context_subset)
    (pe : OptionMapPerm c1.encryption_context_equals c2.encryption_context_equals)
    (ps : OptionMapPerm c1.encryption_context_subset c2.encryption_context_subset) :
    kmsGrantConstraintsString c1 = kmsGrantConstraintsString c2 := by
  unfold kmsGrantConstraintsString
  rw [kmsGrantComponentString_perm _ nde pe, kmsGrantComponentString_perm _ nds ps]

/-- C1: the constraint fingerprint is deterministic and
order-independent — two constraint variants with the same kind tags and
the same key/value pairs hash identically regardless of map insertion
order; the serialization walks the keys in ascending lexicographic
order; and a variant whose mapping is empty (or absent) contributes
nothing to the serialized string. -/
theorem kms_constraints_hash_order_independent :
    (∀ c1 c2 : GrantConstraint,
        OptionKeysNodup c1.encryption_context_equals →
        OptionKeysNodup c1.encryption_context_subset →
        OptionMapPerm c1.encryption_context_equals c2.encryption_context_equals →
        OptionMapPerm c1.encryption_context_subset c2.encryption_context_subset →
        resourceKmsGrantConstraintsHash c1 = resourceKmsGrantConstraintsHash c2) ∧
    (∀ m : List (String × String),
        List.Sorted (fun a b : String => a ≤ b) (sortStringMapKeys m)) ∧
    (∀ sub, kmsGrantConstraintsString
        { encryption_context_equals := some [], encryption_context_subset := sub } =
      kmsGrantConstraintsString
        { encryption_context_equals := none, encryption_context_subset := sub }) ∧
    (∀ eqc, kmsGrantConstraintsString
        { encryption_context_equals := eqc, encryption_context_subset := some [] } =
      kmsGrantConstraintsString
        { encryption_context_equals := eqc, encryption_context_subset := none }) := by
  refine ⟨?_, ?_, ?_, ?_⟩
  · intro c1 c2 nde nds pe ps
    unfold resourceKmsGrantConstraintsHash
    rw [kmsGrantConstraintsString_perm nde nds pe ps]
  · intro m
    exact List.sorted_insertionSort _ _
  · intro sub; rfl
  · intro eqc; rfl

/-- Applies the fingerprint theorem at the two insertion orders of the
equals mapping holding the pairs a:1 and b:2: the hashes agree. -/
theorem kms_constraints_hash_order_independent_witness :
    resourceKmsGrantConstraintsHash
        { encryption_context_equals := some [("a", "1"), ("b", "2")],
          encryption_context_subset := none } =
      resourceKmsGrantConstraintsHash
        { encryption_context_equals := some [("b", "2"), ("a", "1")],
          encryption_context_subset := none } :=
  kms_constraints_hash_order_independent.1 _ _ (by decide) (by decide)
    (by decide) (by decide)

/-- C3: along any chain of pages served by the listing oracle, the
paginated search returns the matching grant as soon as a page contains
it — after exactly `i + 1` page fetches when the first match is on page
`i`, hence exactly N fetches for a match on the last of N pages — and
when every page is exhausted without a match it returns the dedicated
missing-grant error after fetching all N pages. -/
theorem find_grant_pagination
    (listGrants : Option String → Except GoError ListGrantsPage)
    (keyId grantId : String) (retryFuel : Nat) (hrf : 1 ≤ retryFuel) :
    ∀ {marker : Option String} {pss : List (List GrantListEntry)},
      ListingChain listGrants marker pss →
      ∀ pageFuel : Nat, pss.length ≤ pageFuel →
      ((∀ (i : Nat) (p : List GrantListEntry) (g : GrantListEntry),
          pss[i]? = some p →
          (∀ q ∈ pss.take i, getKmsGrantById q grantId = none) →
          getKmsGrantById p grantId = some g →
          findKmsGrantById listGrants keyId grantId retryFuel pageFuel marker =
            (.ok g, i + 1)) ∧
       ((∀ q ∈ pss, getKmsGrantById q grantId = none) →
          findKmsGrantById listGrants keyId grantId retryFuel pageFuel marker =
            (.error (.kmsGrantMissing
              ("[DEBUG] Grant " ++ grantId ++ " not found for key id: " ++ keyId)),
             pss.length))) := by
  intro marker pss hchain
  induction hchain with
  | last hm =>
    rename_i m ps nm
    intro pageFuel hpf
    obtain ⟨pf, rfl⟩ : ∃ pf, pageFuel = pf + 1 :=
      ⟨pageFuel - 1, by simp at hpf; omega⟩
    have hstep : listGrantsRetryStep listGrants m =
        .ok { grants := ps, truncated := false, nextMarker := nm } := by
      unfold listGrantsRetryStep
      rw [hm]
    have hr := resourceRetry_ok_first (fun _ => listGrantsRetryStep listGrants m)
      0 retryFuel _ hstep hrf
    constructor
    · intro i p g hip htake hmatch
      cases i with
      | zero =>
        simp only [List.getElem?_cons_zero, Option.some.injEq] at hip
        subst hip
        simp [findKmsGrantById, hr, hmatch]
      | succ j =>
        simp at hip
    · intro hnone
      have hps := hnone ps (by simp)
      simp [findKmsGrantById, hr, hps]
  | cons hm hrest ih =>
    rename_i m ps m2 rest
    intro pageFuel hpf
    obtain ⟨pf, rfl⟩ : ∃ pf, pageFuel = pf + 1 :=
      ⟨pageFuel - 1, by simp at hpf; omega⟩
    have hpf2 : rest.length ≤ pf := by simp at hpf; omega
    have hstep : listGrantsRetryStep listGrants m =
        .ok { grants := ps, truncated := true, nextMarker := m2 } := by
      unfold listGrantsRetryStep
      rw [hm]
    have hr := resourceRetry_ok_first (fun _ => listGrantsRetryStep listGrants m)
      0 retryFuel _ hstep hrf
    constructor
    · intro i p g hip htake hmatch
      cases i with
      | zero =>
        simp only [List.getElem?_cons_zero, Option.some.injEq] at hip
        subst hip
        simp [findKmsGrantById, hr, hmatch]
      | succ j =>
        have hps : getKmsGrantById ps grantId = none :=
          htake ps (by simp [List.take_succ_cons])
        have htake2 : ∀ q ∈ rest.take j, getKmsGrantById q grantId = none := by
          intro q hq
          exact htake q (by simp [List.take_succ_cons, hq])
        have hip2 : rest[j]? = some p := by simpa using hip
        have hrec := (ih pf hpf2).1 j p g hip2 htake2 hmatch
        simp [findKmsGrantById, hr, hps, hrec]
        omega
    · intro hnone
      have hps := hnone ps (by simp)
      have hnone2 : ∀ q ∈ rest, getKmsGrantById q grantId = none := by
        intro q hq
        exact hnone q (by simp [hq])
      have hrec := (ih pf hpf2).2 hnone2
      simp [findKmsGrantById, hr, hps, hrec]
      omega

/-- The grant served on the second page of `twoPageListing`. -/
def twoPageListingGrant : GrantListEntry :=
  { grantId := "g1", granteePrincipal := "arn:aws:iam::123:role/X",
    retiringPrincipal := none, name := "n1", operations := ["Encrypt"],
    constraints := none }

/-- A two-page listing for the pagination witness: the first page is
empty and truncated with marker "m1"; the page under any marker holds the
searched grant and is final. -/
def twoPageListing : Option String → Except GoError ListGrantsPage
  | none => .ok { grants := [], truncated := true, nextMarker := some "m1" }
  | some _ => .ok { grants := [twoPageListingGrant], truncated := false,
                    nextMarker := none }

/-- Applies the pagination theorem at the two-page listing whose match is
on the last page: exactly two page fetches, and the grant is returned. -/
theorem find_grant_pagination_witness :
    findKmsGrantById twoPageListing "k" "g1" 1 2 none = (.ok twoPageListingGrant, 2) := by
  have h1 : twoPageListing none =
      .ok { grants := [], truncated := true, nextMarker := some "m1" } := rfl
  have h2 : twoPageListing (some "m1") =
      .ok { grants := [twoPageListingGrant], truncated := false, nextMarker := none } := rfl
  have hchain : ListingChain twoPageListing none [[], [twoPageListingGrant]] :=
    .cons h1 (.last h2)
  refine (find_grant_pagination twoPageListing "k" "g1" 1 (by decide) hchain 2
    (by decide)).1 1 [twoPageListingGrant] twoPageListingGrant rfl ?_ rfl
  intro q hq
  simp at hq
  subst hq
  rfl
